import Mathlib

/-!
Verification of the systrace libc interception core
(`src/platform/android/libc_wrappers.c`) against its natural-language
specification.  The C code is shallowly embedded: the mutable global
state (FD category table, signal table, per-thread return slot) is
passed explicitly, machine integers become `Int`/`Nat` with explicit
reductions where overflow matters, and the real libc call performed
inside `safe_call` is represented by its observable outcome (return
value and the error code it leaves in the thread's errno).
-/

namespace Systrace

/-! ## FD category table (`libc_wrappers.c` lines 54-117, 999-1038)

The C state is
  `static int fdtable_sz = MIN_FDTABLE_SZ;`
  `static char *fdtable = init_fdtable;`
We model the backing memory as a total map from byte offset to byte
(so that the out-of-bounds accesses the code can perform at offset
`fdtable_sz` are expressible), together with the current size.
Bytes outside every allocation so far are modelled as 0.
`malloc` is modelled as always succeeding (all claims about the table
are conditional on growth succeeding). -/

/-- Null byte, the `'\0'` untracked marker of the C table. -/
def chr0 : Char := Char.ofNat 0

def MIN_FDTABLE_SZ : Nat := 128

structure FdTable where
  sz : Nat
  mem : Int → Char

/-- Initial state: `fdtable_sz = MIN_FDTABLE_SZ`, `init_fdtable` zeroed. -/
def initFdTable : FdTable := ⟨MIN_FDTABLE_SZ, fun _ => chr0⟩

/-- Embedding of `__maybe_grow_fdtable` (lines 64-82): grows only when
`fd > fdtable_sz`; the new size is `MIN_FDTABLE_SZ*2` when
`fd < MIN_FDTABLE_SZ*2`, else `fd * 2`; the new memory is zeroed and the
first `fdtable_sz` bytes of the old table are copied over. -/
def maybe_grow_fdtable (fd : Int) (t : FdTable) : FdTable :=
  if (t.sz : Int) < fd then
    let newsz : Nat :=
      if fd < ((MIN_FDTABLE_SZ * 2 : Nat) : Int) then MIN_FDTABLE_SZ * 2
      else (fd * 2).toNat
    { sz := newsz
      mem := fun i => if 0 ≤ i ∧ i < (t.sz : Int) then t.mem i else chr0 }
  else t

/-- Embedding of `get_fdtype` (lines 84-102).  Returns the character read
and the (possibly grown / lazily updated) table: an untracked fd 0, 1 or 2
is assigned the standard-stream category `'f'` on first observation. -/
def get_fdtype (fd : Int) (t : FdTable) : Char × FdTable :=
  if fd < 0 then (chr0, t)
  else
    let t1 := maybe_grow_fdtable fd t
    let c := t1.mem fd
    if c = chr0 ∧ (fd = 0 ∨ fd = 1 ∨ fd = 2) then
      ('f', { t1 with mem := fun i => if i = fd then 'f' else t1.mem i })
    else (c, t1)

/-- Embedding of `set_fdtype` (lines 104-117): no-op for `fd < 0`,
otherwise grow-if-needed then store `type` at offset `fd` (note: when
`fd = fdtable_sz` no growth happens and the store is one byte past the
table). -/
def set_fdtype (fd : Int) (ty : Char) (t : FdTable) : FdTable :=
  if fd < 0 then t
  else
    let t1 := maybe_grow_fdtable fd t
    { t1 with mem := fun i => if i = fd then ty else t1.mem i }

/-- Embedding of `handle_closefd` (lines 999-1016): guarded by
`should_handle`; clears the entry only when `fd < fdtable_sz`; always
returns 0 (never a full substitution). -/
def handle_closefd (shouldHandle : Bool) (fd : Int) (t : FdTable) :
    Int × FdTable :=
  if !shouldHandle then (0, t)
  else (0, if fd < (t.sz : Int) then
             { t with mem := fun i => if i = fd then chr0 else t.mem i }
           else t)

/-! ### Basic lemmas about the table -/

lemma grow_sz_ge_self (fd : Int) (t : FdTable) :
    t.sz ≤ (maybe_grow_fdtable fd t).sz := by
  unfold maybe_grow_fdtable
  split
  · rename_i h
    dsimp only
    split
    · rename_i h2
      simp only [MIN_FDTABLE_SZ] at *
      omega
    · rename_i h2
      simp only [MIN_FDTABLE_SZ] at *
      omega
  · exact le_refl _

lemma grow_sz_ge_fd (fd : Int) (t : FdTable) (hfd : 0 ≤ fd) :
    fd ≤ ((maybe_grow_fdtable fd t).sz : Int) := by
  unfold maybe_grow_fdtable
  split
  · rename_i h
    dsimp only
    split
    · rename_i h2
      simp only [MIN_FDTABLE_SZ] at *
      omega
    · rename_i h2
      simp only [MIN_FDTABLE_SZ] at *
      omega
  · rename_i h
    omega

lemma grow_mem_lo (fd : Int) (t : FdTable) (i : Int)
    (h0 : 0 ≤ i) (h1 : i < (t.sz : Int)) :
    (maybe_grow_fdtable fd t).mem i = t.mem i := by
  unfold maybe_grow_fdtable
  split
  · simp [h0, h1]
  · rfl

lemma grow_mem_hi (fd : Int) (t : FdTable) (i : Int)
    (hgrow : (t.sz : Int) < fd) (h1 : (t.sz : Int) ≤ i) :
    (maybe_grow_fdtable fd t).mem i = chr0 := by
  unfold maybe_grow_fdtable
  rw [if_pos hgrow]
  dsimp only
  rw [if_neg]
  omega

lemma set_fdtype_sz (fd : Int) (ty : Char) (t : FdTable) (hfd : 0 ≤ fd) :
    (set_fdtype fd ty t).sz = (maybe_grow_fdtable fd t).sz := by
  unfold set_fdtype
  rw [if_neg (by omega)]

lemma set_fdtype_mem_self (fd : Int) (ty : Char) (t : FdTable)
    (hfd : 0 ≤ fd) : (set_fdtype fd ty t).mem fd = ty := by
  unfold set_fdtype
  rw [if_neg (by omega)]
  simp

/-- After `set_fdtype fd ty t` with `fd ≥ 0`, a later `get_fdtype fd`
reads back `ty`, provided `ty` is not the untracked marker. -/
lemma get_after_set (fd : Int) (ty : Char) (t : FdTable)
    (hfd : 0 ≤ fd) (hty : ty ≠ chr0) :
    (get_fdtype fd (set_fdtype fd ty t)).1 = ty := by
  unfold get_fdtype
  rw [if_neg (by omega)]
  have hsz : fd ≤ ((set_fdtype fd ty t).sz : Int) := by
    rw [set_fdtype_sz fd ty t hfd]
    exact grow_sz_ge_fd fd t hfd
  have hnogrow : maybe_grow_fdtable fd (set_fdtype fd ty t)
      = set_fdtype fd ty t := by
    unfold maybe_grow_fdtable
    rw [if_neg (by omega)]
  rw [hnogrow]
  dsimp only
  rw [set_fdtype_mem_self fd ty t hfd]
  rw [if_neg]
  intro hcon
  exact hty hcon.1

/-- Embedding of `handle_rename_fd1` (lines 1040-1066): guarded by
`should_mod_sym`; reads the category of the first-argument fd via
`get_fdtype` (which may grow the table / lazily mark fds 0-2) and
rewrites the symbol to `"<symbol>_<c>"`, using `'?'` when the category
byte is zero (the C `type ? type : '?'`). -/
def handle_rename_fd1 (shouldModSym : Bool) (symbol : String) (fd : Int)
    (t : FdTable) : String × FdTable :=
  if !shouldModSym then (symbol, t)
  else
    let gt := get_fdtype fd t
    (symbol ++ "_" ++ String.singleton (if gt.1 = chr0 then '?' else gt.1),
     gt.2)

/-- When no growth can trigger (`fd ≤ sz`), `get_fdtype` returns the
stored byte, or `'f'` for an untracked standard stream. -/
lemma get_fdtype_of_fit (fd : Int) (t : FdTable)
    (h0 : 0 ≤ fd) (hfit : fd ≤ (t.sz : Int)) :
    (get_fdtype fd t).1 =
      if t.mem fd = chr0 ∧ (fd = 0 ∨ fd = 1 ∨ fd = 2) then 'f'
      else t.mem fd := by
  unfold get_fdtype
  rw [if_neg (by omega)]
  have hng : maybe_grow_fdtable fd t = t := by
    unfold maybe_grow_fdtable
    rw [if_neg (by omega)]
  rw [hng]
  dsimp only
  by_cases hc : t.mem fd = chr0 ∧ (fd = 0 ∨ fd = 1 ∨ fd = 2)
  · rw [if_pos hc, if_pos hc]
  · rw [if_neg hc, if_neg hc]

/-- On the pristine table every fd that is not a standard stream reads
back as untracked. -/
lemma get_init_untracked (fd : Int) (hfd : 3 ≤ fd) :
    (get_fdtype fd initFdTable).1 = chr0 := by
  unfold get_fdtype
  rw [if_neg (by omega)]
  have hmem : (maybe_grow_fdtable fd initFdTable).mem fd = chr0 := by
    by_cases hg : ((initFdTable.sz : Int) < fd)
    · exact grow_mem_hi fd initFdTable fd hg (by omega)
    · have hng : maybe_grow_fdtable fd initFdTable = initFdTable := by
        unfold maybe_grow_fdtable
        rw [if_neg hg]
      rw [hng]
      rfl
  dsimp only
  rw [hmem]
  rw [if_neg]
  intro hcon
  rcases hcon.2 with h | h | h <;> omega

/-- Setting a descriptor other than `i` cannot change the byte an
in-bounds `i` reads: growth copies the first `fdtable_sz` bytes and the
store hits only offset `fd`. -/
lemma set_fdtype_mem_other (fd : Int) (c : Char) (t : FdTable) (i : Int)
    (hne : i ≠ fd) (h0 : 0 ≤ i) (hlt : i < (t.sz : Int)) :
    (set_fdtype fd c t).mem i = t.mem i := by
  unfold set_fdtype
  by_cases hneg : fd < 0
  · rw [if_pos hneg]
  · rw [if_neg hneg]
    dsimp only
    rw [if_neg hne]
    exact grow_mem_lo fd t i h0 hlt

/-- `set_fdtype` never shrinks the table. -/
lemma set_fdtype_sz_mono (fd : Int) (c : Char) (t : FdTable) :
    t.sz ≤ (set_fdtype fd c t).sz := by
  unfold set_fdtype
  by_cases hneg : fd < 0
  · rw [if_pos hneg]
  · rw [if_neg hneg]
    exact grow_sz_ge_self fd t

/-- The table `get_fdtype` hands back agrees with the old one on every
in-bounds offset other than the queried descriptor (the lazy `'f'` store
hits only the queried fd). -/
lemma get_fdtype_snd_mem (fd : Int) (t : FdTable) (i : Int)
    (hne : i ≠ fd) (h0 : 0 ≤ i) (hlt : i < (t.sz : Int)) :
    ((get_fdtype fd t).2).mem i = t.mem i := by
  unfold get_fdtype
  by_cases hneg : fd < 0
  · rw [if_pos hneg]
  · rw [if_neg hneg]
    dsimp only
    split
    · dsimp only
      rw [if_neg hne]
      exact grow_mem_lo fd t i h0 hlt
    · exact grow_mem_lo fd t i h0 hlt

/-- `get_fdtype` never shrinks the table. -/
lemma get_fdtype_snd_sz (fd : Int) (t : FdTable) :
    t.sz ≤ ((get_fdtype fd t).2).sz := by
  unfold get_fdtype
  by_cases hneg : fd < 0
  · rw [if_pos hneg]
  · rw [if_neg hneg]
    dsimp only
    split
    · exact grow_sz_ge_self fd t
    · exact grow_sz_ge_self fd t

/-- The close handler touches only the closed descriptor's byte. -/
lemma closefd_mem (fd : Int) (t : FdTable) (i : Int) (hne : i ≠ fd) :
    ((handle_closefd true fd t).2).mem i = t.mem i := by
  by_cases hin : fd < (t.sz : Int)
  · simp [handle_closefd, hin, hne]
  · simp [handle_closefd, hin]

/-- The close handler never changes the capacity. -/
lemma closefd_sz (b : Bool) (fd : Int) (t : FdTable) :
    ((handle_closefd b fd t).2).sz = t.sz := by
  by_cases hin : fd < (t.sz : Int)
  · cases b <;> simp [handle_closefd, hin]
  · cases b <;> simp [handle_closefd, hin]

/-- A store to a descriptor other than the current capacity lands the
entry strictly inside the (possibly grown) table. -/
lemma set_fdtype_sz_gt (fd : Int) (c : Char) (t : FdTable)
    (h0 : 0 ≤ fd) (hne : fd ≠ (t.sz : Int)) :
    fd < ((set_fdtype fd c t).sz : Int) := by
  rw [set_fdtype_sz fd c t h0]
  unfold maybe_grow_fdtable
  split
  · dsimp only
    split
    · rename_i h1 h2
      simp only [MIN_FDTABLE_SZ] at *
      omega
    · rename_i h1 h2
      simp only [MIN_FDTABLE_SZ] at *
      omega
  · rename_i h1
    omega

/-! ### Sequences of FD-table operations

The operations the table is subjected to over a process's life: a
`set_fdtype` (an open/dup/socket/pipe handler marking a descriptor), a
`get_fdtype` (a dup or rename handler reading one) and the close
handler.  `FdOp.touches` is the descriptor an operation names. -/

inductive FdOp where
  | set (fd : Int) (c : Char)
  | get (fd : Int)
  | close (fd : Int)
  deriving DecidableEq

def applyFdOp (op : FdOp) (t : FdTable) : FdTable :=
  match op with
  | .set fd c => set_fdtype fd c t
  | .get fd => (get_fdtype fd t).2
  | .close fd => (handle_closefd true fd t).2

def FdOp.touches : FdOp → Int
  | .set fd _ => fd
  | .get fd => fd
  | .close fd => fd

def applyFdOps (ops : List FdOp) (t : FdTable) : FdTable :=
  ops.foldl (fun t op => applyFdOp op t) t

/-- One table operation naming a different descriptor preserves an
in-bounds descriptor's byte and keeps it in bounds. -/
lemma applyFdOp_preserves (op : FdOp) (t : FdTable) (fd : Int)
    (h0 : 0 ≤ fd) (hlt : fd < (t.sz : Int)) (hne : op.touches ≠ fd) :
    (applyFdOp op t).mem fd = t.mem fd ∧
    fd < ((applyFdOp op t).sz : Int) := by
  cases op with
  | set fd' c' =>
    simp only [applyFdOp, FdOp.touches] at *
    refine ⟨set_fdtype_mem_other fd' c' t fd (by omega) h0 hlt, ?_⟩
    have h2 := set_fdtype_sz_mono fd' c' t
    omega
  | get fd' =>
    simp only [applyFdOp, FdOp.touches] at *
    refine ⟨get_fdtype_snd_mem fd' t fd (by omega) h0 hlt, ?_⟩
    have h2 := get_fdtype_snd_sz fd' t
    omega
  | close fd' =>
    simp only [applyFdOp, FdOp.touches] at *
    refine ⟨closefd_mem fd' t fd (by omega), ?_⟩
    rw [closefd_sz true fd' t]
    exact hlt

/-- Any sequence of table operations that never names `fd` preserves an
in-bounds `fd`'s byte and keeps it in bounds. -/
lemma applyFdOps_preserves : ∀ (ops : List FdOp) (t : FdTable) (fd : Int),
    0 ≤ fd → fd < (t.sz : Int) →
    (∀ op ∈ ops, FdOp.touches op ≠ fd) →
    (applyFdOps ops t).mem fd = t.mem fd ∧
    fd < ((applyFdOps ops t).sz : Int)
  | [], _, _, _, hlt, _ => ⟨rfl, hlt⟩
  | op :: ops, t, fd, h0, hlt, hops => by
    have hstep := applyFdOp_preserves op t fd h0 hlt
      (hops op (List.mem_cons_self op ops))
    have hrec := applyFdOps_preserves ops (applyFdOp op t) fd h0 hstep.2
      (fun o ho => hops o (List.mem_cons_of_mem op ho))
    refine ⟨?_, hrec.2⟩
    show (applyFdOps ops (applyFdOp op t)).mem fd = t.mem fd
    rw [hrec.1, hstep.1]

/-- C1 counterexample: the claim's growth trigger and formula both fail
on the code.  With the initial capacity 128, `set_fdtype 128` (an access
naming a descriptor at the current capacity) performs no growth — the
capacity stays 128 although the descriptor is tracked (readable back as
`'S'`), so `fd < capacity` fails; and `set_fdtype 200` grows the
capacity to 256, not to `max(capacity*2, fd*2) = max(256, 400) = 400`
as the claim states. -/
theorem c1_counterexample :
    (set_fdtype 128 'S' initFdTable).sz = 128 ∧
    ¬((128 : Nat) < (set_fdtype 128 'S' initFdTable).sz) ∧
    (get_fdtype 128 (set_fdtype 128 'S' initFdTable)).1 = 'S' ∧
    (set_fdtype 200 'S' initFdTable).sz = 256 ∧
    ((256 : Int) ≠ max ((128 : Int) * 2) ((200 : Int) * 2)) := by
  refine ⟨rfl, by decide, rfl, rfl, by decide⟩

/-- C1 (amended): the table grows only when an access names a descriptor
strictly beyond the current capacity; the new capacity is `fd*2`,
bounded below by twice the minimum size (`MIN_FDTABLE_SZ*2 = 256`); an
access at or below the capacity leaves it unchanged.  Consequently after
`set_fdtype fd c` with `fd ≥ 0` only the weaker invariant
`fd ≤ capacity` holds (with equality in the off-by-one case
`fd = capacity`, where the store lands one byte past the table). -/
theorem c1_amended_growth (t : FdTable) (fd : Int) (c : Char)
    (hfd : 0 ≤ fd) :
    ((t.sz : Int) < fd →
      ((set_fdtype fd c t).sz : Int) =
        if fd < ((MIN_FDTABLE_SZ * 2 : Nat) : Int)
        then ((MIN_FDTABLE_SZ * 2 : Nat) : Int) else fd * 2) ∧
    (fd ≤ (t.sz : Int) → (set_fdtype fd c t).sz = t.sz) ∧
    fd ≤ ((set_fdtype fd c t).sz : Int) := by
  rw [set_fdtype_sz fd c t hfd]
  refine ⟨?_, ?_, ?_⟩
  · intro hlt
    unfold maybe_grow_fdtable
    rw [if_pos hlt]
    dsimp only
    by_cases h2 : fd < ((MIN_FDTABLE_SZ * 2 : Nat) : Int)
    · rw [if_pos h2, if_pos h2]
    · rw [if_neg h2, if_neg h2]
      omega
  · intro hle
    unfold maybe_grow_fdtable
    rw [if_neg (by omega)]
  · exact grow_sz_ge_fd fd t hfd

/-- Witness for `c1_amended_growth` at the concrete input
`t = initFdTable`, `fd = 300`, `c = 'S'`: capacity 128 grows to 600. -/
theorem c1_amended_growth_witness :
    ((set_fdtype 300 'S' initFdTable).sz : Int) = 600 := by
  have h := (c1_amended_growth initFdTable 300 'S' (by decide)).1 (by decide)
  rw [if_neg (by decide)] at h
  simpa using h

/-- C3 counterexample: closing fd 0 and immediately reading its category
yields `'f'`, not the untracked marker 0 — `get_fdtype` lazily
re-assigns the standard-stream category to fds 0/1/2. -/
theorem c3_counterexample :
    (get_fdtype 0 ((handle_closefd true 0
        (set_fdtype 0 'S' initFdTable)).2)).1 = 'f' ∧
    ('f' : Char) ≠ chr0 := by
  refine ⟨rfl, by decide⟩

/-- C3 (amended): for every fd ≥ 0 and category `c` other than the
untracked marker, `get_fdtype` after `set_fdtype fd c` returns `c`
(growth always succeeds in the model), and when the store lands inside
the table (fd different from the pre-set capacity, cf. the C1
off-by-one) the category persists across any sequence of further
set/get/close operations naming only other descriptors; after the close
handler runs for an in-capacity fd ≥ 3 the category reads back as
untracked (0); for the standard streams 0/1/2 a read after close
instead lazily re-assigns and returns `'f'`. -/
theorem c3_amended_get_set_close (t : FdTable) (fd : Int) (c : Char)
    (ops : List FdOp) :
    (0 ≤ fd → c ≠ chr0 →
      (get_fdtype fd (set_fdtype fd c t)).1 = c) ∧
    (0 ≤ fd → c ≠ chr0 → fd ≠ (t.sz : Int) →
      (∀ op ∈ ops, FdOp.touches op ≠ fd) →
      (get_fdtype fd (applyFdOps ops (set_fdtype fd c t))).1 = c) ∧
    (3 ≤ fd → fd < (t.sz : Int) →
      (get_fdtype fd ((handle_closefd true fd t).2)).1 = chr0) ∧
    (∀ s : Int, s = 0 ∨ s = 1 ∨ s = 2 → s < (t.sz : Int) →
      (get_fdtype s ((handle_closefd true s t).2)).1 = 'f') := by
  refine ⟨fun h0 hc => get_after_set fd c t h0 hc, ?_, ?_, ?_⟩
  · intro h0 hc hneq hops
    have hsz1 : fd < ((set_fdtype fd c t).sz : Int) :=
      set_fdtype_sz_gt fd c t h0 hneq
    obtain ⟨hmem, hsz2⟩ :=
      applyFdOps_preserves ops (set_fdtype fd c t) fd h0 hsz1 hops
    rw [get_fdtype_of_fit fd _ h0 (le_of_lt hsz2)]
    rw [hmem, set_fdtype_mem_self fd c t h0]
    exact if_neg (fun hcon => hc hcon.1)
  · intro h3 hlt
    have hfd0 : ¬(fd = 0 ∨ fd = 1 ∨ fd = 2) := by omega
    have hcl : (handle_closefd true fd t).2 =
        { t with mem := fun i => if i = fd then chr0 else t.mem i } := by
      simp [handle_closefd, hlt]
    rw [hcl]
    rw [get_fdtype_of_fit fd _ (by omega) (by simpa using le_of_lt hlt)]
    simp [hfd0]
  · intro s hs hlt2
    have h0s : 0 ≤ s := by rcases hs with h | h | h <;> omega
    have hcl : ((handle_closefd true s t).2).mem s = chr0 := by
      simp [handle_closefd, hlt2]
    rw [get_fdtype_of_fit s _ h0s
      (by rw [closefd_sz true s t]; omega)]
    rw [hcl]
    exact if_pos ⟨rfl, hs⟩

/-- Witness for `c3_amended_get_set_close`: set-then-get at fd 7 reads
`'S'`, and still reads `'S'` after a set at fd 9, a get at fd 3 and a
close at fd 12; close-then-get at fd 5 reads untracked; close-then-get
at the standard stream fd 1 reads `'f'`. -/
theorem c3_amended_witness :
    (get_fdtype 7 (set_fdtype 7 'S' initFdTable)).1 = 'S' ∧
    (get_fdtype 7 (applyFdOps [FdOp.set 9 'D', FdOp.get 3, FdOp.close 12]
        (set_fdtype 7 'S' initFdTable))).1 = 'S' ∧
    (get_fdtype 5 ((handle_closefd true 5 initFdTable).2)).1 = chr0 ∧
    (get_fdtype 1 ((handle_closefd true 1 initFdTable).2)).1 = 'f' :=
  ⟨(c3_amended_get_set_close initFdTable 7 'S' []).1 (by decide) (by decide),
   (c3_amended_get_set_close initFdTable 7 'S'
      [FdOp.set 9 'D', FdOp.get 3, FdOp.close 12]).2.1
      (by decide) (by decide) (by decide) (by decide),
   (c3_amended_get_set_close initFdTable 5 'S' []).2.2.1
      (by decide) (by decide),
   (c3_amended_get_set_close initFdTable 1 'S' []).2.2.2 1
      (by decide) (by decide)⟩

/-- C9: growing the table from capacity N to M > N preserves every
previously readable category (for every fd < N, `get_fdtype` returns the
same byte before and after growth) and every newly added slot reads back
as untracked (0).  The hypothesis `MIN_FDTABLE_SZ ≤ sz` holds in every
reachable state (the capacity starts at the minimum and never shrinks). -/
theorem c9_grow_preserves (t : FdTable) (fd : Int)
    (hmin : MIN_FDTABLE_SZ ≤ t.sz) (hgrow : (t.sz : Int) < fd) :
    (∀ i : Int, 0 ≤ i → i < (t.sz : Int) →
      (get_fdtype i (maybe_grow_fdtable fd t)).1 = (get_fdtype i t).1) ∧
    (∀ i : Int, (t.sz : Int) ≤ i → i < ((maybe_grow_fdtable fd t).sz : Int) →
      (get_fdtype i (maybe_grow_fdtable fd t)).1 = chr0) := by
  have hszg : t.sz ≤ (maybe_grow_fdtable fd t).sz := grow_sz_ge_self fd t
  constructor
  · intro i h0 h1
    rw [get_fdtype_of_fit i _ h0 (by omega)]
    rw [get_fdtype_of_fit i t h0 (by omega)]
    rw [grow_mem_lo fd t i h0 h1]
  · intro i h0 h1
    rw [get_fdtype_of_fit i _ (by omega) (by omega)]
    rw [grow_mem_hi fd t i hgrow h0]
    rw [if_neg]
    intro hcon
    have : MIN_FDTABLE_SZ = 128 := rfl
    rcases hcon.2 with h | h | h <;> omega

/-- Witness for `c9_grow_preserves`: growing the initial 128-entry table
for fd 300 (new capacity 600) leaves slot 5 reading as before and slot
200 reading untracked. -/
theorem c9_grow_preserves_witness :
    (get_fdtype 5 (maybe_grow_fdtable 300 initFdTable)).1 =
      (get_fdtype 5 initFdTable).1 ∧
    (get_fdtype 200 (maybe_grow_fdtable 300 initFdTable)).1 = chr0 :=
  ⟨(c9_grow_preserves initFdTable 300 (by decide) (by decide)).1 5
      (by decide) (by decide),
   (c9_grow_preserves initFdTable 300 (by decide) (by decide)).2 200
      (by decide) (by decide)⟩

/-- C8 counterexample: the rename-only handler applied to `read` on the
untracked fd 0 produces `read_f`, not `read_?` — `get_fdtype` lazily
assigns the standard-stream category to an untracked fd 0/1/2 before the
rename reads it. -/
theorem c8_counterexample :
    (handle_rename_fd1 true "read" 0 initFdTable).1 = "read_f" ∧
    "read_f" ≠ "read_?" := by
  refine ⟨rfl, by decide⟩

/-- C8 (amended): the rename-only handler rewrites the symbol to the
original name, an underscore, and the category character of the call's
first-argument fd: `read` on an fd previously marked `'S'` becomes
`read_S`; on an untracked fd it becomes `read_?` — except the untracked
standard streams 0/1/2, which are lazily marked `'f'` and yield
`read_f`. -/
theorem c8_amended_rename (t : FdTable) (fd : Int) :
    (0 ≤ fd →
      (handle_rename_fd1 true "read" fd (set_fdtype fd 'S' t)).1
        = "read_S") ∧
    (3 ≤ fd →
      (handle_rename_fd1 true "read" fd initFdTable).1 = "read_?") ∧
    (handle_rename_fd1 true "read" 0 initFdTable).1 = "read_f" := by
  refine ⟨?_, ?_, rfl⟩
  · intro h0
    have hS := get_after_set fd 'S' t h0 (by decide)
    unfold handle_rename_fd1
    dsimp only
    rw [hS]
    rw [if_neg (by decide)]
    rfl
  · intro h3
    have h0 := get_init_untracked fd h3
    unfold handle_rename_fd1
    dsimp only
    rw [h0]
    rw [if_pos rfl]
    rfl

/-- Witness for `c8_amended_rename`: fd 9 marked `'S'` renames `read` to
`read_S`; the untracked fd 5 renames it to `read_?`. -/
theorem c8_amended_rename_witness :
    (handle_rename_fd1 true "read" 9 (set_fdtype 9 'S' initFdTable)).1
      = "read_S" ∧
    (handle_rename_fd1 true "read" 5 initFdTable).1 = "read_?" :=
  ⟨(c8_amended_rename initFdTable 9).1 (by decide),
   (c8_amended_rename initFdTable 5).2.1 (by decide)⟩

/-! ## Symbol dispatch cache (`libc_wrappers.c` lines 120-194)

`s_wrap_cache` is a 256-slot table of entries; a slot's overflow chain is
modelled together with the slot itself as the list of entries living at
that hash index, in insertion order (`add_entry` walks to the end of the
chain and appends).  The handler function pointer is modelled as an
opaque numeric identifier.  `malloc` inside `add_entry` is modelled as
succeeding, and `get_cached_sym` is modelled on a fresh call context
(`info->symcache` empty, `info->symhash` not yet computed), which is the
path that hashes the name and walks the chain. -/

structure wrap_cache_entry where
  name : String
  handler : Nat
  wrapsym : Bool
  modsym : Bool
  deriving DecidableEq

/-- Embedding of `wrap_hash` (lines 133-139): an 8-bit shift-and-xor
fold over the bytes of the name, forced to 1 when it comes out 0. -/
def wrap_hash (s : String) : Nat :=
  let v := s.data.foldl (fun v c => ((v <<< 1) ^^^ c.toNat % 256) % 256) 0
  if v = 0 then 1 else v

def SymCache : Type := Nat → List wrap_cache_entry

def emptyCache : SymCache := fun _ => []

/-- Embedding of `add_entry` (lines 141-166): hash the name; if the slot
is occupied, append a fresh node at the end of the overflow chain,
otherwise fill the slot. -/
def add_entry (c : SymCache) (symname : String) (handler : Nat)
    (wrapsym modsym : Bool) : SymCache :=
  fun i => if i = wrap_hash symname
           then c i ++ [⟨symname, handler, wrapsym, modsym⟩]
           else c i

/-- Embedding of `get_cached_sym` (lines 168-194) on a fresh call
context: hash the symbol, then walk the bucket's chain comparing names
with `local_strcmp`, returning the first entry whose name matches and
`NULL` (`none`) when the slot is empty or the walk falls off the end. -/
def get_cached_sym (c : SymCache) (symbol : String) :
    Option wrap_cache_entry :=
  (c (wrap_hash symbol)).find? (fun e => e.name == symbol)

/-- C5: after registering two distinct names that hash to the same
bucket, looking up each name returns that name's own entry (name and
handler), and looking up any unregistered name returns `none`. -/
theorem c5_collision_chain (n1 n2 : String) (h1 h2 : Nat)
    (w1 m1 w2 m2 : Bool) (hne : n1 ≠ n2)
    (hcoll : wrap_hash n1 = wrap_hash n2) :
    get_cached_sym
        (add_entry (add_entry emptyCache n1 h1 w1 m1) n2 h2 w2 m2) n1
      = some ⟨n1, h1, w1, m1⟩ ∧
    get_cached_sym
        (add_entry (add_entry emptyCache n1 h1 w1 m1) n2 h2 w2 m2) n2
      = some ⟨n2, h2, w2, m2⟩ ∧
    ∀ n, n ≠ n1 → n ≠ n2 →
      get_cached_sym
          (add_entry (add_entry emptyCache n1 h1 w1 m1) n2 h2 w2 m2) n
        = none := by
  have hbucket : (add_entry (add_entry emptyCache n1 h1 w1 m1)
      n2 h2 w2 m2) (wrap_hash n1) =
      [⟨n1, h1, w1, m1⟩, ⟨n2, h2, w2, m2⟩] := by
    simp [add_entry, emptyCache, hcoll]
  refine ⟨?_, ?_, ?_⟩
  · unfold get_cached_sym
    rw [hbucket]
    simp
  · unfold get_cached_sym
    rw [← hcoll, hbucket]
    simp [hne]
  · intro n hn1 hn2
    unfold get_cached_sym
    by_cases hh : wrap_hash n = wrap_hash n1
    · rw [hh, hbucket]
      simp [Ne.symm hn1, Ne.symm hn2]
    · have hh2 : wrap_hash n ≠ wrap_hash n2 := by
        rw [← hcoll]; exact hh
      simp [add_entry, emptyCache, hh, hh2]

/-- Witness for `c5_collision_chain`: the real symbol `open` and the
crafted name `apx` both hash to bucket 28; both resolve to their own
entries and a third name misses. -/
theorem c5_collision_chain_witness :
    get_cached_sym
        (add_entry (add_entry emptyCache "open" 1 true false)
          "apx" 2 true false) "open" = some ⟨"open", 1, true, false⟩ ∧
    get_cached_sym
        (add_entry (add_entry emptyCache "open" 1 true false)
          "apx" 2 true false) "apx" = some ⟨"apx", 2, true, false⟩ ∧
    get_cached_sym
        (add_entry (add_entry emptyCache "open" 1 true false)
          "apx" 2 true false) "close" = none :=
  ⟨(c5_collision_chain "open" "apx" 1 2 true false true false
      (by decide) (by decide)).1,
   (c5_collision_chain "open" "apx" 1 2 true false true false
      (by decide) (by decide)).2.1,
   (c5_collision_chain "open" "apx" 1 2 true false true false
      (by decide) (by decide)).2.2 "close" (by decide) (by decide)⟩

/-! ## Return-Value Channel and safe-call protocol
(`libc_wrappers.c` lines 46-52, 274-296)

`struct ret_ctx` and `get_retmem` live in `wrap_tls.h`/`wrap_tls.c`,
which are not part of the sources; the per-thread slot is modelled from
the spec (see `get_retmem_read`).  The `safe_call` macro suppresses
recursive wrapping, runs the real call, and captures `*__errno()`
immediately after it returns; a real call is therefore modelled by its
observable outcome: the value it returns and the error code it leaves in
the calling thread's errno. -/

structure RetCtx where
  sym : String
  _errno : Int
  u32 : Nat
  deriving DecidableEq

structure ThreadState where
  retslot : Option RetCtx
  errno : Int
  deriving DecidableEq

/-- Modelled from the spec: `get_retmem` and the TLS `struct ret_ctx`
are defined in `wrap_tls.c`/`wrap_tls.h`, which are missing from the
sources.  Per the spec, `read_result` "reads and clears the calling
thread's Return-Value Channel slot" and "fails fatally if no value was
published for this call", so the modelled accessor yields the published
value, if any, together with the thread state with the slot cleared,
and `none` when nothing was published. -/
def get_retmem_read (th : ThreadState) : Option (RetCtx × ThreadState) :=
  th.retslot.map (fun r => (r, { th with retslot := none }))

/-- Embedding of `wrapped_return` (lines 282-296): fetch the thread's
return slot — `BUG_MSG(0x4311, "No TLS return value!")`, a
process-aborting diagnostic, when it is unavailable, modelled as
`Except.error 0x4311` — then read the saved error code and 32-bit value,
restore the error code into the thread's errno and deliver the value. -/
def wrapped_return (th : ThreadState) : Except Nat (Nat × ThreadState) :=
  match get_retmem_read th with
  | none => .error 0x4311
  | some (r, th1) => .ok (r.u32, { th1 with errno := r._errno })

/-- The common tail of every full handler:
`ret = get_retmem(NULL); ret->sym = ...; ret->_errno = err;
ret->u.u32[0] = rval;` overwrites the thread's slot. -/
def publish_ret (sym : String) (err : Int) (rval : Nat)
    (th : ThreadState) : ThreadState :=
  { th with retslot := some ⟨sym, err, rval⟩ }

/-- The 32-bit union slot `u.u32[0]`: an `int` return value is stored as
its 32-bit pattern. -/
def u32ofInt (i : Int) : Nat := (i % (2 ^ 32 : Int)).toNat

/-- Outcome of the real library call performed inside `safe_call`: the
value it returns and the error code it leaves in the thread's errno,
which the macro captures immediately after the call returns. -/
structure RealCall where
  rval : Int
  errAfter : Int
  deriving DecidableEq

structure SysState where
  fdt : FdTable
  th : ThreadState

/-- Embedding of `__get_path_type` (lines 681-705): `'D'` for `/dev/`
paths, `'K'` for `/proc/`, `'k'` for `/sys/`, else the regular-file
category `'F'`; a null path yields the untracked marker. -/
def get_path_type (path : Option String) : Char :=
  match path with
  | none => chr0
  | some p =>
    if "/dev/".isPrefixOf p then 'D'
    else if "/proc/".isPrefixOf p then 'K'
    else if "/sys/".isPrefixOf p then 'k'
    else 'F'

/-- Embedding of `handle_open` (lines 707-744): guarded by
`should_handle`; invokes the real open via `safe_call` (capturing its
errno as `err`), marks the returned fd's category from the path when the
call succeeded, publishes `(rval, err)` to the Return-Value Channel and
reports the call as fully handled (1). -/
def handle_open (shouldHandle : Bool) (symbol : String)
    (path : Option String) (real : RealCall) (st : SysState) :
    Int × SysState :=
  if !shouldHandle then (0, st)
  else
    let err := real.errAfter
    let th1 := { st.th with errno := real.errAfter }
    let fdt1 := if 0 ≤ real.rval
                then set_fdtype real.rval (get_path_type path) st.fdt
                else st.fdt
    (1, ⟨fdt1, publish_ret symbol err (u32ofInt real.rval) th1⟩)

/-- Embedding of `handle_dup` (lines 824-864): guarded by
`should_handle`; returns 0 untouched when the old descriptor is
negative ("don't mess around with invalid input"); otherwise reads the
old fd's category, invokes the real dup via `safe_call`, gives the new
fd the same category on success and publishes the result.  The last
component records whether the real function was invoked. -/
def handle_dup (shouldHandle : Bool) (symbol : String)
    (oldfd newfd : Int) (real : RealCall) (st : SysState) :
    Int × SysState × Bool :=
  if !shouldHandle then (0, st, false)
  else if oldfd < 0 then (0, st, false)
  else
    let gt := get_fdtype oldfd st.fdt
    let err := real.errAfter
    let th1 := { st.th with errno := real.errAfter }
    let fdt1 := if 0 ≤ real.rval then set_fdtype real.rval gt.1 gt.2
                else gt.2
    (1, ⟨fdt1, publish_ret symbol err (u32ofInt real.rval) th1⟩, true)

/-- Embedding of `handle_openat` (lines 747-782): like `handle_open`
but the path is the second argument (the dirfd is the first); category
from the path when the real call returned a descriptor, then publish. -/
def handle_openat (shouldHandle : Bool) (symbol : String) (dirfd : Int)
    (path : Option String) (real : RealCall) (st : SysState) :
    Int × SysState :=
  if !shouldHandle then (0, st)
  else
    let err := real.errAfter
    let th1 := { st.th with errno := real.errAfter }
    let fdt1 := if 0 ≤ real.rval
                then set_fdtype real.rval (get_path_type path) st.fdt
                else st.fdt
    (1, ⟨fdt1, publish_ret symbol err (u32ofInt real.rval) th1⟩)

/-- Embedding of `handle_fopen` (lines 784-821): the real call returns a
`FILE *` (modelled as an address, 0 = `NULL`); on success the stream's
descriptor, obtained through `libc.fno` (modelled as the parameter
`fno`), is categorized from the path; the pointer itself is published
as the 32-bit value. -/
def handle_fopen (shouldHandle : Bool) (symbol : String)
    (path : Option String) (fno : Int → Int) (real : RealCall)
    (st : SysState) : Int × SysState :=
  if !shouldHandle then (0, st)
  else
    let err := real.errAfter
    let th1 := { st.th with errno := real.errAfter }
    let fdt1 := if real.rval ≠ 0
                then set_fdtype (fno real.rval) (get_path_type path) st.fdt
                else st.fdt
    (1, ⟨fdt1, publish_ret symbol err (u32ofInt real.rval) th1⟩)

/-- Embedding of `handle_socket` (lines 866-899), for `socket` and
`socketpair`: a nonnegative result is marked `'S'`, then publish. -/
def handle_socket (shouldHandle : Bool) (symbol : String)
    (real : RealCall) (st : SysState) : Int × SysState :=
  if !shouldHandle then (0, st)
  else
    let err := real.errAfter
    let th1 := { st.th with errno := real.errAfter }
    let fdt1 := if 0 ≤ real.rval then set_fdtype real.rval 'S' st.fdt
                else st.fdt
    (1, ⟨fdt1, publish_ret symbol err (u32ofInt real.rval) th1⟩)

/-- Embedding of `handle_accept` (lines 965-997): identical in state
effect to the socket handler — a nonnegative result is marked `'S'`,
then publish. -/
def handle_accept (shouldHandle : Bool) (symbol : String)
    (real : RealCall) (st : SysState) : Int × SysState :=
  if !shouldHandle then (0, st)
  else
    let err := real.errAfter
    let th1 := { st.th with errno := real.errAfter }
    let fdt1 := if 0 ≤ real.rval then set_fdtype real.rval 'S' st.fdt
                else st.fdt
    (1, ⟨fdt1, publish_ret symbol err (u32ofInt real.rval) th1⟩)

/-- Embedding of `handle_pipe` (lines 901-963): branches on the second
byte of the symbol.  `pipe`/`pipe2` (`'i'`): on a zero result with a
non-null fd array, both ends are marked `'P'`; `popen` (`'o'`): the log
flush and fork mark are outside the modelled state, a non-null `FILE *`
result has its descriptor (via `libc.fno`, the parameter `fno`) marked
`'p'`, and the pointer is published as the value; any other symbol is
not handled.  `pfd` is the contents of the caller's `fd[2]` array after
the real call (`none` for a null pointer). -/
def handle_pipe (shouldHandle : Bool) (symbol : String)
    (pfd : Option (Int × Int)) (fno : Int → Int) (real : RealCall)
    (st : SysState) : Int × SysState :=
  if !shouldHandle then (0, st)
  else if symbol.data.getD 1 chr0 = 'i' then
    let err := real.errAfter
    let th1 := { st.th with errno := real.errAfter }
    let fdt1 := match pfd with
                | some p => if real.rval = 0
                            then set_fdtype p.2 'P' (set_fdtype p.1 'P' st.fdt)
                            else st.fdt
                | none => st.fdt
    (1, ⟨fdt1, publish_ret symbol err (u32ofInt real.rval) th1⟩)
  else if symbol.data.getD 1 chr0 = 'o' then
    let err := real.errAfter
    let th1 := { st.th with errno := real.errAfter }
    let fdt1 := if real.rval ≠ 0
                then set_fdtype (fno real.rval) 'p' st.fdt
                else st.fdt
    (1, ⟨fdt1, publish_ret symbol err (u32ofInt real.rval) th1⟩)
  else (0, st)

/-- C2: `wrapped_return` reads and clears the calling thread's
Return-Value Channel slot and fails fatally (`BUG_MSG` code 0x4311) when
no value was published for this call. -/
theorem c2_wrapped_return_spec (th : ThreadState) :
    (th.retslot = none → wrapped_return th = .error 0x4311) ∧
    (∀ r, th.retslot = some r →
      wrapped_return th = .ok (r.u32, ⟨none, r._errno⟩)) := by
  constructor
  · intro h
    unfold wrapped_return get_retmem_read
    rw [h]
    rfl
  · intro r h
    unfold wrapped_return get_retmem_read
    rw [h]
    rfl

/-- Witness for `c2_wrapped_return_spec`: an empty slot aborts with
0x4311; a published `(value 3, error 2)` is delivered and the slot
cleared. -/
theorem c2_wrapped_return_spec_witness :
    wrapped_return ⟨none, 7⟩ = .error 0x4311 ∧
    wrapped_return ⟨some ⟨"open", 2, 3⟩, 7⟩ = .ok (3, ⟨none, 2⟩) :=
  ⟨(c2_wrapped_return_spec ⟨none, 7⟩).1 rfl,
   (c2_wrapped_return_spec ⟨some ⟨"open", 2, 3⟩, 7⟩).2 ⟨"open", 2, 3⟩ rfl⟩

/-- C6: for every full-handle call that reaches its `safe_call` —
every publishing path of the open, openat, fopen/freopen, dup/dup2,
socket/socketpair, accept, pipe/pipe2 and popen handlers — the error
code captured by `safe_call` immediately after the real call returns is
exactly the error code `wrapped_return` later restores into the
application's errno, and the stored 32-bit return value is delivered
unaltered.  (The close handlers call no real function and publish
nothing, and `handle_dup` publishes only when it invokes the real call,
cf. C10.) -/
theorem c6_errno_faithful (symbol : String) (path : Option String)
    (real : RealCall) (st : SysState) (oldfd newfd dirfd : Int)
    (pfd : Option (Int × Int)) (fno : Int → Int) :
    (wrapped_return ((handle_open true symbol path real st).2.th) =
      .ok (u32ofInt real.rval, ⟨none, real.errAfter⟩)) ∧
    (wrapped_return ((handle_openat true symbol dirfd path real st).2.th) =
      .ok (u32ofInt real.rval, ⟨none, real.errAfter⟩)) ∧
    (wrapped_return ((handle_fopen true symbol path fno real st).2.th) =
      .ok (u32ofInt real.rval, ⟨none, real.errAfter⟩)) ∧
    (0 ≤ oldfd →
      wrapped_return
          ((handle_dup true symbol oldfd newfd real st).2.1.th) =
        .ok (u32ofInt real.rval, ⟨none, real.errAfter⟩)) ∧
    (wrapped_return ((handle_socket true symbol real st).2.th) =
      .ok (u32ofInt real.rval, ⟨none, real.errAfter⟩)) ∧
    (wrapped_return ((handle_accept true symbol real st).2.th) =
      .ok (u32ofInt real.rval, ⟨none, real.errAfter⟩)) ∧
    (wrapped_return ((handle_pipe true "pipe" pfd fno real st).2.th) =
      .ok (u32ofInt real.rval, ⟨none, real.errAfter⟩)) ∧
    (wrapped_return ((handle_pipe true "pipe2" pfd fno real st).2.th) =
      .ok (u32ofInt real.rval, ⟨none, real.errAfter⟩)) ∧
    (wrapped_return ((handle_pipe true "popen" pfd fno real st).2.th) =
      .ok (u32ofInt real.rval, ⟨none, real.errAfter⟩)) := by
  refine ⟨rfl, rfl, rfl, ?_, rfl, rfl, ?_, ?_, ?_⟩
  · intro h
    simp [handle_dup, publish_ret, wrapped_return, get_retmem_read,
          not_lt.mpr h]
  · cases pfd <;> rfl
  · cases pfd <;> rfl
  · cases pfd <;> rfl

/-- Witness for `c6_errno_faithful`: an open leaving errno 11 delivers
errno 11; a dup of fd 4 leaving errno 13 delivers errno 13; a popen
returning stream address 81920 and leaving errno 17 delivers both
unaltered. -/
theorem c6_errno_faithful_witness :
    wrapped_return ((handle_open true "open" (some "/a") ⟨3, 11⟩
        ⟨initFdTable, ⟨none, 0⟩⟩).2.th) = .ok (u32ofInt 3, ⟨none, 11⟩) ∧
    wrapped_return ((handle_dup true "dup" 4 0 ⟨5, 13⟩
        ⟨initFdTable, ⟨none, 0⟩⟩).2.1.th) = .ok (u32ofInt 5, ⟨none, 13⟩) ∧
    wrapped_return ((handle_pipe true "popen" none (fun _ => 7) ⟨81920, 17⟩
        ⟨initFdTable, ⟨none, 0⟩⟩).2.th) =
      .ok (u32ofInt 81920, ⟨none, 17⟩) :=
  ⟨(c6_errno_faithful "open" (some "/a") ⟨3, 11⟩
      ⟨initFdTable, ⟨none, 0⟩⟩ 4 0 0 none (fun _ => 7)).1,
   (c6_errno_faithful "dup" none ⟨5, 13⟩
      ⟨initFdTable, ⟨none, 0⟩⟩ 4 0 0 none (fun _ => 7)).2.2.2.1 (by decide),
   (c6_errno_faithful "popen" none ⟨81920, 17⟩
      ⟨initFdTable, ⟨none, 0⟩⟩ 4 0 0 none
      (fun _ => 7)).2.2.2.2.2.2.2.2⟩

/-- C10: a dup/dup2 call whose old descriptor is negative is not
handled: the handler returns 0, leaves the whole state (FD table,
return slot, errno) untouched, and never invokes the real function, so
the trampoline lets the real call proceed unintercepted. -/
theorem c10_dup_negative (symbol : String) (oldfd newfd : Int)
    (real : RealCall) (st : SysState) (hneg : oldfd < 0) :
    handle_dup true symbol oldfd newfd real st = (0, st, false) := by
  simp [handle_dup, hneg]

/-- Witness for `c10_dup_negative` at `oldfd = -1`. -/
theorem c10_dup_negative_witness :
    handle_dup true "dup" (-1) 0 ⟨5, 13⟩ ⟨initFdTable, ⟨none, 0⟩⟩ =
      (0, ⟨initFdTable, ⟨none, 0⟩⟩, false) :=
  c10_dup_negative "dup" (-1) 0 ⟨5, 13⟩ ⟨initFdTable, ⟨none, 0⟩⟩
    (by decide)

/-! ## Fork/Exec preload propagation (`libc_wrappers.c` lines 381-411) -/

/-- The shim path list `LIB_PATH "/" _str(_IBNAM_) ":" LIB_PATH "/"
_str(LIBNAME)` (lines 385-388).  The three components are build-time
macros, so they are parameters of the embedding. -/
def ld_preload_paths (libPath ibnam libname : String) : String :=
  libPath ++ "/" ++ ibnam ++ ":" ++ libPath ++ "/" ++ libname

/-- Embedding of `wrap_ld_preload` (lines 381-411).  With no prior value
the static string `"LD_PRELOAD=" ++ paths` is returned.  Otherwise the
code scans `old_val` to its terminator (`old_sz` bytes), allocates
`old_sz + ldp_sz + 1` bytes, copies the old bytes, writes a single
`':'`, and copies the path list with its terminator, producing exactly
`old ++ ":" ++ paths`; `malloc` is modelled as succeeding. -/
def wrap_ld_preload (libPath ibnam libname : String) :
    Option String → Option String
  | none => some ("LD_PRELOAD=" ++ ld_preload_paths libPath ibnam libname)
  | some old => some (old ++ ":" ++ ld_preload_paths libPath ibnam libname)

/-- C4: with no prior value, `wrap_ld_preload` yields
`LD_PRELOAD=<path1>:<path2>` — exactly the shim's own two paths joined
by the single list separator, with no leading or trailing separator
artifact; with prior value `/a/b` it yields `/a/b:<path1>:<path2>`,
appending with a single separator and reusing the original contents
unchanged as the head of the result. -/
theorem c4_wrap_ld_preload (libPath ibnam libname : String) :
    wrap_ld_preload libPath ibnam libname none =
      some ("LD_PRELOAD=" ++ libPath ++ "/" ++ ibnam ++ ":" ++ libPath
        ++ "/" ++ libname) ∧
    wrap_ld_preload libPath ibnam libname (some "/a/b") =
      some ("/a/b" ++ ":" ++ libPath ++ "/" ++ ibnam ++ ":" ++ libPath
        ++ "/" ++ libname) := by
  constructor
  · show some ("LD_PRELOAD=" ++ ld_preload_paths libPath ibnam libname) = _
    unfold ld_preload_paths
    simp [String.append_assoc]
  · show some ("/a/b" ++ ":" ++ ld_preload_paths libPath ibnam libname) = _
    unfold ld_preload_paths
    simp [String.append_assoc]

/-! ## Signal interposition (`libc_wrappers.c` lines 510-667)

`s_sighandler` is a `MAX_SIGNALS`-slot array of the application's
original handler pointers; handler addresses are modelled as the 32-bit
values held in the register slots (`uint32_t`), with the Linux/bionic
sentinel values `SIG_DFL = 0` (= `NULL`), `SIG_IGN = 1` and
`SIG_ERR = (sighandler_t)-1 = 0xffffffff`.  The array index is the
`(int)` cast of the signal register, so it is modelled as an `Int`-keyed
map.  The address of `wrapped_sighandler`, the interposer substituted on
installation, is a link-time constant and hence a parameter. -/

def MAX_SIGNALS : Nat := 32

def SigTable : Type := Int → Nat

def initSigTable : SigTable := fun _ => 0

/-- Embedding of `install_sighandler` (lines 579-605), logging elided:
rejects (returns 1 for) signal numbers at or above `MAX_SIGNALS`,
otherwise records the original handler and returns 0. -/
def install_sighandler (sig : Int) (orig : Nat) (tbl : SigTable) :
    Int × SigTable :=
  if (MAX_SIGNALS : Int) ≤ sig then (1, tbl)
  else (0, fun i => if i = sig then orig else tbl i)

/-- Embedding of `handle_signal` (lines 607-625), the simple-handler
installation API (`signal`, `bsd_signal`, `sysv_signal`): guarded by
`should_handle`; when the application-supplied target is `NULL`,
`SIG_IGN`, `SIG_DFL` or `SIG_ERR` it returns immediately, recording
nothing and leaving the handler argument untouched; otherwise it records
the original handler and rewrites the argument register to the
interposer.  Result: (return value, signal table, handler register). -/
def handle_signal (wrapAddr : Nat) (shouldHandle : Bool)
    (regs0 : Int) (regs1 : Nat) (tbl : SigTable) :
    Int × SigTable × Nat :=
  if !shouldHandle then (0, tbl, regs1)
  else if regs1 = 0 ∨ regs1 = 1 ∨ regs1 = 4294967295 then (0, tbl, regs1)
  else
    let res := install_sighandler regs0 regs1 tbl
    if res.1 = 0 then (0, res.2, wrapAddr) else (0, res.2, regs1)

structure SigAction where
  sa_sigaction : Nat
  deriving DecidableEq

/-- Embedding of `handle_sigaction` (lines 644-667), the
structured-descriptor installation API (`sig_action`): guarded by
`should_handle`; a null descriptor pointer, or a target that is `NULL`,
`SIG_IGN`, `SIG_DFL` or `SIG_ERR`, passes through untouched and is not
tracked; otherwise the original handler is recorded and the
descriptor's `sa_sigaction` member is rewritten to the interposer. -/
def handle_sigaction (wrapAddr : Nat) (shouldHandle : Bool)
    (regs0 : Int) (sa : Option SigAction) (tbl : SigTable) :
    Int × SigTable × Option SigAction :=
  if !shouldHandle then (0, tbl, sa)
  else
    match sa with
    | none => (0, tbl, none)
    | some s =>
      if s.sa_sigaction = 0 ∨ s.sa_sigaction = 1 ∨
         s.sa_sigaction = 4294967295 then (0, tbl, some s)
      else
        let res := install_sighandler regs0 s.sa_sigaction tbl
        if res.1 = 0 then (0, res.2, some ⟨wrapAddr⟩)
        else (0, res.2, some s)

/-- C7: when the application installs a handler whose target is null or
one of the sentinel ignore/default/error values, both installation
handlers return 0 without recording anything in the signal table and
without substituting the interposing handler, for any signal number. -/
theorem c7_signal_sentinels (wrapAddr : Nat) (tbl : SigTable)
    (regs0 : Int) (h : Nat)
    (hsent : h = 0 ∨ h = 1 ∨ h = 4294967295) :
    handle_signal wrapAddr true regs0 h tbl = (0, tbl, h) ∧
    handle_sigaction wrapAddr true regs0 (some ⟨h⟩) tbl
      = (0, tbl, some ⟨h⟩) := by
  constructor
  · simp [handle_signal, hsent]
  · simp [handle_sigaction, hsent]

/-- Witness for `c7_signal_sentinels`: installing `SIG_IGN` (= 1) for
signal 2 records nothing and substitutes nothing, under either API. -/
theorem c7_signal_sentinels_witness :
    handle_signal 3735928559 true 2 1 initSigTable
      = (0, initSigTable, 1) ∧
    handle_sigaction 3735928559 true 2 (some ⟨1⟩) initSigTable
      = (0, initSigTable, some ⟨1⟩) :=
  ⟨(c7_signal_sentinels 3735928559 initSigTable 2 1 (Or.inr (Or.inl rfl))).1,
   (c7_signal_sentinels 3735928559 initSigTable 2 1 (Or.inr (Or.inl rfl))).2⟩

end Systrace
